import Mathlib

/-!
Verification development for the claw clipboard-history UI client.

The definitions below shallowly embed the TypeScript sources:
  src/lib/api/keybinds.ts         (normalizeKey, setKeybindsFromConfig, matchKeybind)
  src/lib/api/clipboard.ts        (loadHistory, useFromHistory, removeFromHistory,
                                   clearAllHistory)
  src/lib/components/History.svelte (handleKeyDown, onMount, history-updated listener)

JavaScript string primitives (trim, toLowerCase, split, includes, join,
charAt-capitalization) are modelled by structurally recursive functions over
the character list of a Lean String, restricted to the ASCII behaviour the
configuration strings use, so that every definition evaluates by kernel
reduction.
-/

/-- Model of JS String.prototype.trim: drop whitespace from both ends. -/
def jsTrim (s : String) : String :=
  String.mk (((s.data.dropWhile Char.isWhitespace).reverse.dropWhile Char.isWhitespace).reverse)

/-- Model of JS String.prototype.toLowerCase (ASCII). -/
def jsToLower (s : String) : String :=
  String.mk (s.data.map Char.toLower)

/-- Auxiliary splitter over character lists: one split point per separator
occurrence, like JS String.prototype.split with a one-character separator. -/
def splitCharAux (sep : Char) : List Char → List Char → List (List Char)
  | [], acc => [acc.reverse]
  | c :: cs, acc =>
      if c == sep then acc.reverse :: splitCharAux sep cs []
      else splitCharAux sep cs (c :: acc)

/-- Model of JS String.prototype.split with a one-character separator. -/
def jsSplit (s : String) (sep : Char) : List String :=
  (splitCharAux sep s.data []).map String.mk

/-- Model of JS String.prototype.includes with a one-character needle. -/
def jsIncludes (s : String) (c : Char) : Bool :=
  s.data.contains c

/-- Model of JS Array.prototype.join. -/
def jsJoin (sep : String) : List String → String
  | [] => ""
  | [s] => s
  | s :: rest => s ++ sep ++ jsJoin sep rest

/-- Model of the capitalization expression in keybinds.ts line 39:
m.charAt(0).toUpperCase() + m.slice(1).toLowerCase(). -/
def capitalizeJS (m : String) : String :=
  match m.data with
  | [] => ""
  | c :: cs => String.mk (c.toUpper :: cs.map Char.toLower)

/-- Model of the JS truthiness-based default `s || d` for strings:
the empty string is falsy and selects the default. -/
def jsOr (s d : String) : String :=
  if s == "" then d else s

/-- The fields of a KeyboardEvent that keybinds.ts reads. -/
structure KeyEvent where
  key : String
  shiftKey : Bool
  ctrlKey : Bool
  altKey : Bool
deriving DecidableEq, Repr

/-- The Keybinds record of keybinds.ts lines 4-10. -/
structure Keybinds where
  historyUp : String
  historyDown : String
  useEntry : String
  removeEntry : String
  deleteAll : String
deriving DecidableEq, Repr

/-- The default keybinds of keybinds.ts lines 13-19. -/
def defaultKeybinds : Keybinds :=
  { historyUp := "ArrowUp"
    historyDown := "ArrowDown"
    useEntry := "Enter"
    removeEntry := "x"
    deleteAll := "" }

/-- normalizeKey of keybinds.ts lines 22-46. -/
def normalizeKey (key : String) : String :=
  if jsTrim key == "" then ""
  else
    let k := jsToLower (jsTrim key)
    if k == "up" then "ArrowUp"
    else if k == "down" then "ArrowDown"
    else if k == "return" then "Enter"
    else if k == "enter" then "Enter"
    else if k == "delete" then "Delete"
    else if jsIncludes key '+' then
      let parts := (jsSplit key '+').map jsTrim
      let lastPart := (parts.getLast?).getD ""
      let modifiers := parts.dropLast.map capitalizeJS
      jsJoin "+" (modifiers ++ [jsToLower lastPart])
    else jsToLower (jsTrim key)

/-- The keybinds field of the configuration object consumed by
setKeybindsFromConfig (keybinds.ts lines 49-57). -/
structure KeybindsConfig where
  up : String
  down : String
  select : String
  delete : String
  delete_all : String
deriving DecidableEq, Repr

/-- setKeybindsFromConfig of keybinds.ts lines 58-64: each field is defaulted
through JS truthiness and then normalized. -/
def setKeybindsFromConfig (config : KeybindsConfig) : Keybinds :=
  { historyUp := normalizeKey (jsOr config.up "ArrowUp")
    historyDown := normalizeKey (jsOr config.down "ArrowDown")
    useEntry := normalizeKey (jsOr config.select "Enter")
    removeEntry := normalizeKey (jsOr config.delete "x")
    deleteAll := normalizeKey (jsOr config.delete_all "") }

/-- The trimmed parts of a keybind string (keybinds.ts line 75). -/
def keybindParts (keybind : String) : List String :=
  (jsSplit keybind '+').map jsTrim

/-- The base key popped from the parts, trimmed and lower-cased
(keybinds.ts line 76). -/
def keybindBaseKey (keybind : String) : String :=
  jsToLower (jsTrim (((keybindParts keybind).getLast?).getD ""))

/-- The modifier tokens remaining after the base key is popped. -/
def keybindMods (keybind : String) : List String :=
  (keybindParts keybind).dropLast

/-- shiftRequired of keybinds.ts line 78. -/
def shiftRequired (keybind : String) : Bool :=
  (keybindMods keybind).any fun p => jsToLower p == "shift"

/-- ctrlRequired of keybinds.ts line 79. -/
def ctrlRequired (keybind : String) : Bool :=
  (keybindMods keybind).any fun p => jsToLower p == "ctrl"

/-- altRequired of keybinds.ts line 80. -/
def altRequired (keybind : String) : Bool :=
  (keybindMods keybind).any fun p => jsToLower p == "alt"

/-- The comparison core of matchKeybind, keybinds.ts lines 82-109: event-key
normalization, key comparison and exact modifier comparison, for an already
parsed keybind. -/
def matchKeybindCore (event : KeyEvent) (baseKey : String)
    (shiftReq ctrlReq altReq : Bool) : Bool :=
  let eventKey :=
    if jsToLower event.key == "arrowup" || jsToLower event.key == "arrowdown" ||
       jsToLower event.key == "arrowleft" || jsToLower event.key == "arrowright" then
      event.key
    else if event.key == "Enter" then "Enter"
    else if event.key == "Delete" then "Delete"
    else jsToLower event.key
  let keysMatch :=
    if baseKey == "arrowup" || baseKey == "arrowdown" ||
       baseKey == "arrowleft" || baseKey == "arrowright" then
      jsToLower eventKey == baseKey
    else eventKey == baseKey
  let modifiersMatch :=
    (event.shiftKey == shiftReq) && (event.ctrlKey == ctrlReq) &&
    (event.altKey == altReq)
  keysMatch && modifiersMatch

/-- matchKeybind of keybinds.ts lines 69-130. -/
def matchKeybind (event : KeyEvent) (keybind : String) : Bool :=
  if jsTrim keybind == "" then false
  else
    matchKeybindCore event (keybindBaseKey keybind) (shiftRequired keybind)
      (ctrlRequired keybind) (altRequired keybind)

/-- The ClipboardEntry record of clipboard.ts lines 5-10. -/
structure ClipboardEntry where
  id : String
  content : Option (List Nat)
  timestamp : String
  content_type : String
deriving DecidableEq, Repr

/-- The local reactive state read and written by the history view: the cached
history list, the selection cursor selectedIndex (History.svelte line 9,
an integer that starts at -1), and the transient user message store. -/
structure AppState where
  history : List ClipboardEntry
  selectedIndex : Int
  message : String
deriving DecidableEq, Repr

/-- The moveUp branch body, History.svelte line 32. -/
def moveUpStep (st : AppState) : AppState :=
  { st with selectedIndex := max (st.selectedIndex - 1) 0 }

/-- The moveDown branch body, History.svelte line 35. -/
def moveDownStep (st : AppState) : AppState :=
  { st with selectedIndex := min (st.selectedIndex + 1) ((st.history.length : Int) - 1) }

/-- The activate branch: useFromHistory of clipboard.ts lines 91-113, fired
from History.svelte line 38. The service outcome is a parameter: on success
the message reports the preview and the history is replaced by the refreshed
list fetched afterwards; on rejection the catch block reports the error and
touches neither the list nor the cursor. -/
def stepUseEntry (st : AppState) (ok : Bool) (refreshed : List ClipboardEntry)
    (preview err : String) : AppState :=
  { history := if ok then refreshed else st.history
    selectedIndex := st.selectedIndex
    message := if ok then "Set clipboard to: " ++ preview
               else "Failed to use from history: " ++ err }

/-- The remove branch: removeFromHistory of clipboard.ts lines 116-124 fired
from History.svelte line 41, followed synchronously by the eager clamp of
line 42, which runs before the asynchronous refresh lands and therefore uses
the pre-intent list length. -/
def stepRemoveEntry (st : AppState) (ok : Bool) (refreshed : List ClipboardEntry)
    (err : String) : AppState :=
  { history := if ok then refreshed else st.history
    selectedIndex := min st.selectedIndex ((st.history.length : Int) - 2)
    message := if ok then "Entry removed from history"
               else "Failed to remove entry: " ++ err }

/-- The removeAll branch: clearAllHistory of clipboard.ts lines 126-134 fired
from History.svelte line 45, followed by the unconditional cursor reset of
line 46. On success clearAllHistory itself empties the cached list; on
rejection it reports the error and leaves the list alone. -/
def stepDeleteAll (st : AppState) (ok : Bool) (err : String) : AppState :=
  { history := if ok then [] else st.history
    selectedIndex := -1
    message := if ok then "History cleared"
               else "Failed to clear history: " ++ err }

/-- loadHistory of clipboard.ts lines 68-76, also the body of the
history-updated listener installed in History.svelte lines 64-66: on success
the cached list is replaced wholesale; on rejection only the message changes.
The cursor is never touched. -/
def loadHistoryStep (st : AppState) (ok : Bool) (entries : List ClipboardEntry)
    (err : String) : AppState :=
  if ok then { st with history := entries }
  else { st with message := "Failed to load history: " ++ err }

/-- The mount-time auto-select of History.svelte lines 59-62, which runs
against the list as it stands when the component mounts (the initial fetch is
asynchronous and has not resolved yet). -/
def onMountStep (st : AppState) : AppState :=
  if 0 < st.history.length ∧ st.selectedIndex = -1 then
    { st with selectedIndex := 0 }
  else st

/-- handleKeyDown of History.svelte lines 27-53: the if/else chain over the
five bindings, with the selectedIndex guards of lines 37 and 40, each branch
delegating to the corresponding step. Service outcome and refreshed list are
parameters of the branches that call the service. -/
def handleKeyDown (kb : Keybinds) (event : KeyEvent) (st : AppState)
    (ok : Bool) (refreshed : List ClipboardEntry) (preview err : String) : AppState :=
  if matchKeybind event kb.historyUp then moveUpStep st
  else if matchKeybind event kb.historyDown then moveDownStep st
  else if matchKeybind event kb.useEntry && decide (0 ≤ st.selectedIndex) then
    stepUseEntry st ok refreshed preview err
  else if matchKeybind event kb.removeEntry && decide (0 ≤ st.selectedIndex) then
    stepRemoveEntry st ok refreshed err
  else if matchKeybind event kb.deleteAll then stepDeleteAll st ok err
  else st

/-- The resolved intent of one input event, GLOSSARY's Intent. -/
inductive Intent where
  | moveUp
  | moveDown
  | useEntry
  | removeEntry
  | deleteAll
deriving DecidableEq, Repr

/-- Which branch of handleKeyDown (History.svelte lines 31-48) fires for a
given event and cursor value: the same chain of conditions as handleKeyDown,
reified as an optional intent. -/
def resolveIntent (kb : Keybinds) (event : KeyEvent) (selectedIndex : Int) :
    Option Intent :=
  if matchKeybind event kb.historyUp then some .moveUp
  else if matchKeybind event kb.historyDown then some .moveDown
  else if matchKeybind event kb.useEntry && decide (0 ≤ selectedIndex) then
    some .useEntry
  else if matchKeybind event kb.removeEntry && decide (0 ≤ selectedIndex) then
    some .removeEntry
  else if matchKeybind event kb.deleteAll then some .deleteAll
  else none

/-- Modelled from the spec for refinement comparison: the dispatcher the spec
describes, which fires the first binding in the fixed priority order whose
spec matches the event, with no cursor guards. -/
def specResolveIntent (kb : Keybinds) (event : KeyEvent) : Option Intent :=
  if matchKeybind event kb.historyUp then some .moveUp
  else if matchKeybind event kb.historyDown then some .moveDown
  else if matchKeybind event kb.useEntry then some .useEntry
  else if matchKeybind event kb.removeEntry then some .removeEntry
  else if matchKeybind event kb.deleteAll then some .deleteAll
  else none

/-- Direction of a pure cursor-movement intent. -/
inductive MoveDir where
  | up
  | down
deriving DecidableEq, Repr

/-- Apply one movement intent. -/
def applyMove (st : AppState) : MoveDir → AppState
  | .up => moveUpStep st
  | .down => moveDownStep st

/-- Apply a finite sequence of movement intents. -/
def applyMoves (st : AppState) (ms : List MoveDir) : AppState :=
  ms.foldl applyMove st

/-- Concrete history entries used in scenario theorems. -/
def entA : ClipboardEntry := ⟨"A", none, "t1", "text"⟩

/-- Second concrete history entry. -/
def entB : ClipboardEntry := ⟨"B", none, "t2", "text"⟩

/-- Third concrete history entry. -/
def entC : ClipboardEntry := ⟨"C", none, "t3", "text"⟩

/-- C1: the spec states that named keys, Enter and Delete included, compare
case-insensitively, so an Enter (resp. Delete) event with no modifiers should
match the spec produced by normalizing the string Enter (resp. Delete). In
the code only the arrow names compare case-insensitively: the event key is
kept as Enter or Delete while the base key of the binding has been
lower-cased, so the comparison on line 101 of keybinds.ts fails and the
default Enter and Delete bindings can never fire. This theorem evaluates the
code at the failing inputs; for contrast, the arrow case does match. -/
theorem C1_enter_delete_never_match :
    normalizeKey "Enter" = "Enter" ∧ normalizeKey "Delete" = "Delete" ∧
    matchKeybind ⟨"Enter", false, false, false⟩ (normalizeKey "Enter") = false ∧
    matchKeybind ⟨"Delete", false, false, false⟩ (normalizeKey "Delete") = false ∧
    matchKeybind ⟨"ArrowUp", false, false, false⟩ (normalizeKey "up") = true := by
  decide

/-- C2 counterexample: with cached list A, B, C and the cursor on B at index
1, a list-replace event delivering B, C leaves the cursor at raw index 1 (now
pointing at C); it does not follow the identifier of B to index 0 as the
claim states. -/
theorem C2_counterexample :
    (loadHistoryStep ⟨[entA, entB, entC], 1, ""⟩ true [entB, entC] "").selectedIndex = 1 ∧
    ¬ (loadHistoryStep ⟨[entA, entB, entC], 1, ""⟩ true [entB, entC] "").selectedIndex = 0 := by
  decide

/-- C2 amended: a list-replace event replaces the cached list wholesale and
leaves the cursor at its previous raw index; no identifier-based
re-resolution takes place. In the removal scenario of the claim the cursor
therefore stays frozen at raw index 1. -/
theorem C2_list_replace_keeps_raw_cursor :
    (∀ (st : AppState) (entries : List ClipboardEntry) (err : String),
       loadHistoryStep st true entries err = ⟨entries, st.selectedIndex, st.message⟩) ∧
    loadHistoryStep ⟨[entA, entB, entC], 1, ""⟩ true [entB, entC] ""
      = ⟨[entB, entC], 1, ""⟩ := by
  exact ⟨fun st entries err => rfl, by decide⟩

/-- C6 counterexample: with the remove-all action bound to the key d, the
list holding one entry and the cursor on index 0, a d keypress whose
clear-history service call is rejected reports a message and leaves the list
unchanged, but still moves the cursor to -1: local state is not left
unchanged as the claim states. -/
theorem C6_counterexample :
    handleKeyDown ⟨"ArrowUp", "ArrowDown", "zz", "zz", "d"⟩ ⟨"d", false, false, false⟩
        ⟨[entA], 0, ""⟩ false [] "" "boom"
      = ⟨[entA], -1, "Failed to clear history: boom"⟩ ∧
    ¬ ((-1 : Int) = (0 : Int)) := by
  decide

/-- C6 amended: when a service call made by an intent handler fails, a
human-readable message is reported and the cached history list is left
unchanged, but the cursor is only left unchanged by the set-from-history and
list handlers; the remove handler eagerly clamps it to min(i, n-2) using the
pre-intent length n, and the remove-all handler resets it to -1, in both
cases regardless of the service outcome. -/
theorem C6_failure_keeps_list_not_cursor :
    (∀ (st : AppState) (r : List ClipboardEntry) (p err : String),
       stepUseEntry st false r p err
         = ⟨st.history, st.selectedIndex, "Failed to use from history: " ++ err⟩) ∧
    (∀ (st : AppState) (entries : List ClipboardEntry) (err : String),
       loadHistoryStep st false entries err
         = ⟨st.history, st.selectedIndex, "Failed to load history: " ++ err⟩) ∧
    (∀ (st : AppState) (r : List ClipboardEntry) (err : String),
       stepRemoveEntry st false r err
         = ⟨st.history, min st.selectedIndex ((st.history.length : Int) - 2),
            "Failed to remove entry: " ++ err⟩) ∧
    (∀ (st : AppState) (err : String),
       stepDeleteAll st false err
         = ⟨st.history, -1, "Failed to clear history: " ++ err⟩) := by
  exact ⟨fun st r p err => rfl, fun st entries err => rfl,
         fun st r err => rfl, fun st err => rfl⟩

/-- C8 counterexample: bind activate and remove-all to the same key a while
the cursor is -1. The activate binding is earlier in the fixed order and its
spec matches the event, yet the dispatcher resolves the event to remove-all,
because the activate branch carries the cursor guard selectedIndex greater
or equal zero: the resolved intent is not the first binding whose spec
matches. -/
theorem C8_counterexample :
    resolveIntent ⟨"q", "w", "a", "e", "a"⟩ ⟨"a", false, false, false⟩ (-1)
      = some Intent.deleteAll ∧
    specResolveIntent ⟨"q", "w", "a", "e", "a"⟩ ⟨"a", false, false, false⟩
      = some Intent.useEntry ∧
    ¬ (Intent.deleteAll = Intent.useEntry) := by
  decide

/-- C8 amended: the dispatcher resolves at most one intent, the first
binding in the order moveUp, moveDown, activate, remove, removeAll whose
spec matches and whose cursor guard (selectedIndex nonnegative, present on
activate and remove only) holds; whenever the cursor is nonnegative this
coincides with the first-match rule of the spec, and an event matching the
moveUp spec always resolves to moveUp regardless of the cursor, in
particular when activate is bound to the same spec. -/
theorem C8_priority_order :
    (∀ (kb : Keybinds) (e : KeyEvent) (i : Int),
       matchKeybind e kb.historyUp = true → resolveIntent kb e i = some Intent.moveUp) ∧
    (∀ (kb : Keybinds) (e : KeyEvent) (i : Int),
       0 ≤ i → resolveIntent kb e i = specResolveIntent kb e) := by
  constructor
  · intro kb e i hm
    simp [resolveIntent, hm]
  · intro kb e i hi
    simp [resolveIntent, specResolveIntent, hi]

/-- C8 witness: with moveUp and activate both bound to the key a and the
cursor at -1, an a keypress resolves to moveUp. -/
theorem C8_witness :
    resolveIntent ⟨"a", "w", "a", "e", "z"⟩ ⟨"a", false, false, false⟩ (-1)
      = some Intent.moveUp :=
  C8_priority_order.1 ⟨"a", "w", "a", "e", "z"⟩ ⟨"a", false, false, false⟩ (-1) (by decide)

/-- C3 counterexample: both directions of the claimed invariant fail on
reachable states. From the initial state (empty list, cursor -1), an
ArrowUp keypress under the default keybinds moves the cursor to 0 while the
list is still empty; and a list-replace event that makes the list non-empty
performs no auto-select, leaving the cursor at -1 with a non-empty list. -/
theorem C3_counterexample :
    ((handleKeyDown defaultKeybinds ⟨"ArrowUp", false, false, false⟩
        ⟨[], -1, ""⟩ true [] "" "").selectedIndex = 0 ∧
     (handleKeyDown defaultKeybinds ⟨"ArrowUp", false, false, false⟩
        ⟨[], -1, ""⟩ true [] "" "").history.length = 0) ∧
    ((loadHistoryStep ⟨[], -1, ""⟩ true [entA] "").selectedIndex = -1 ∧
     (loadHistoryStep ⟨[], -1, ""⟩ true [entA] "").history.length = 1) := by
  decide

/-- C3 amended: the empty-list invariant does not hold. What the code does:
a moveUp intent processed on an empty list with cursor -1 moves the cursor
to 0; a list-replace event never changes the cursor, so making the list
non-empty leaves -1 in place; a moveDown intent on an empty list with
cursor -1 keeps -1; the remove-all branch always forces -1; and the only
auto-select is the mount-time one, which picks index 0 exactly when the
list is already non-empty at mount with cursor -1. -/
theorem C3_empty_list_behavior :
    (∀ (kb : Keybinds) (e : KeyEvent) (st : AppState) (ok : Bool)
       (r : List ClipboardEntry) (p err : String),
       st.history = [] → st.selectedIndex = -1 →
       matchKeybind e kb.historyUp = true →
       (handleKeyDown kb e st ok r p err).selectedIndex = 0) ∧
    (∀ (st : AppState) (ok : Bool) (entries : List ClipboardEntry) (err : String),
       (loadHistoryStep st ok entries err).selectedIndex = st.selectedIndex) ∧
    (∀ (kb : Keybinds) (e : KeyEvent) (st : AppState) (ok : Bool)
       (r : List ClipboardEntry) (p err : String),
       st.history = [] → st.selectedIndex = -1 →
       matchKeybind e kb.historyUp = false → matchKeybind e kb.historyDown = true →
       (handleKeyDown kb e st ok r p err).selectedIndex = -1) ∧
    (∀ (st : AppState) (ok : Bool) (err : String),
       (stepDeleteAll st ok err).selectedIndex = -1) ∧
    (∀ st : AppState, ¬ st.history = [] → st.selectedIndex = -1 →
       (onMountStep st).selectedIndex = 0) := by
  refine ⟨?_, ?_, ?_, ?_, ?_⟩
  · intro kb e st ok r p err h0 h1 hm
    simp [handleKeyDown, hm, moveUpStep, h1]
  · intro st ok entries err
    by_cases h : ok <;> simp [loadHistoryStep, h]
  · intro kb e st ok r p err h0 h1 hmu hmd
    simp [handleKeyDown, hmu, hmd, moveDownStep, h0, h1]
  · intro st ok err
    rfl
  · intro st h0 h1
    have hp : 0 < st.history.length := List.length_pos.mpr h0
    simp [onMountStep, hp, h1]

/-- C3 witness: the first conjunct applied at the initial empty state with
the default keybinds and an ArrowUp event. -/
theorem C3_witness :
    (handleKeyDown defaultKeybinds ⟨"ArrowUp", false, false, false⟩
       ⟨[], -1, ""⟩ true [] "" "").selectedIndex = 0 :=
  C3_empty_list_behavior.1 defaultKeybinds ⟨"ArrowUp", false, false, false⟩
    ⟨[], -1, ""⟩ true [] "" "" rfl rfl (by decide)

/-- C4 counterexample: normalization is not idempotent at the input up: the
canonical form is ArrowUp, but renormalizing ArrowUp lower-cases it to
arrowup, a different canonical string. -/
theorem C4_counterexample :
    normalizeKey "up" = "ArrowUp" ∧
    normalizeKey (normalizeKey "up") = "arrowup" ∧
    ¬ normalizeKey (normalizeKey "up") = normalizeKey "up" := by
  decide

/-- C4 amended: renormalizing the canonical form reproduces the same
canonical string for the Enter and Delete aliases, for plain literal keys
and for modifier combinations, but the arrow canonical forms ArrowUp and
ArrowDown renormalize to their lower-cased variants; those variants are
nonetheless matching-equivalent: they match exactly the same events as the
original canonical forms, because matchKeybind lower-cases the base key and
compares arrow names case-insensitively. -/
theorem C4_renormalization :
    (normalizeKey (normalizeKey "return") = normalizeKey "return" ∧
     normalizeKey (normalizeKey "enter") = normalizeKey "enter" ∧
     normalizeKey (normalizeKey "Enter") = normalizeKey "Enter" ∧
     normalizeKey (normalizeKey "delete") = normalizeKey "delete" ∧
     normalizeKey (normalizeKey "Delete") = normalizeKey "Delete" ∧
     normalizeKey (normalizeKey "Shift+x") = normalizeKey "Shift+x" ∧
     normalizeKey (normalizeKey "Ctrl+Shift+x") = normalizeKey "Ctrl+Shift+x" ∧
     normalizeKey (normalizeKey "x") = normalizeKey "x" ∧
     normalizeKey (normalizeKey "") = normalizeKey "") ∧
    (normalizeKey (normalizeKey "up") = "arrowup" ∧
     normalizeKey (normalizeKey "down") = "arrowdown") ∧
    (∀ e : KeyEvent,
       matchKeybind e (normalizeKey (normalizeKey "up"))
         = matchKeybind e (normalizeKey "up") ∧
       matchKeybind e (normalizeKey (normalizeKey "down"))
         = matchKeybind e (normalizeKey "down")) := by
  refine ⟨by decide, by decide, fun e => ⟨rfl, rfl⟩⟩

/-- C5 counterexample: the aliases left and right are not recognized by
normalizeKey: they are lower-cased and kept as literal keys instead of being
rewritten to ArrowLeft and ArrowRight as the claim states. -/
theorem C5_counterexample :
    normalizeKey "left" = "left" ∧ ¬ normalizeKey "left" = "ArrowLeft" ∧
    normalizeKey "right" = "right" ∧ ¬ normalizeKey "right" = "ArrowRight" := by
  decide

/-- C5 amended: for plus-free input, the recognized aliases are up, down,
return, enter and delete (case-insensitively after trimming), rewritten to
ArrowUp, ArrowDown, Enter, Enter and Delete respectively; left and right are
not recognized; every other plus-free input is trimmed and lower-cased and
treated as a literal character key. -/
theorem C5_alias_rewriting :
    (normalizeKey "up" = "ArrowUp" ∧ normalizeKey " Up " = "ArrowUp" ∧
     normalizeKey "down" = "ArrowDown" ∧ normalizeKey "DOWN" = "ArrowDown" ∧
     normalizeKey "return" = "Enter" ∧ normalizeKey "enter" = "Enter" ∧
     normalizeKey "Return" = "Enter" ∧
     normalizeKey "delete" = "Delete" ∧ normalizeKey "Delete" = "Delete" ∧
     normalizeKey "left" = "left" ∧ normalizeKey "Right" = "right") ∧
    (∀ s : String, ¬ jsTrim s = "" → jsIncludes s '+' = false →
       ¬ jsToLower (jsTrim s) ∈ (["up", "down", "return", "enter", "delete"] : List String) →
       normalizeKey s = jsToLower (jsTrim s)) := by
  refine ⟨by decide, ?_⟩
  intro s h0 h1 h2
  simp only [List.mem_cons, List.mem_singleton, not_or] at h2
  obtain ⟨hu, hd, hr, he, hdel⟩ := h2
  simp [normalizeKey, h0, h1, hu, hd, hr, he, hdel]

/-- C5 witness: the literal-key conjunct applied at the input q. -/
theorem C5_witness : normalizeKey "q" = "q" := by
  have h := C5_alias_rewriting.2 "q" (by decide) (by decide) (by decide)
  simpa using h

/-- C7: modifier comparison is exact. If a non-disabled keybind matches an
event then the Shift, Ctrl and Alt flags of the event each equal the
corresponding required flag parsed from the keybind; the spec produced by
normalizing Shift+x matches events with key X or x exactly when shiftKey is
true and ctrlKey and altKey are false; and a keybind requiring no modifiers
rejects every event in which some modifier is held. -/
theorem C7_exact_modifier_match :
    (∀ (e : KeyEvent) (kb : String), ¬ jsTrim kb = "" → matchKeybind e kb = true →
       e.shiftKey = shiftRequired kb ∧ e.ctrlKey = ctrlRequired kb ∧
       e.altKey = altRequired kb) ∧
    (normalizeKey "Shift+x" = "Shift+x" ∧
     ∀ s c a : Bool,
       matchKeybind ⟨"X", s, c, a⟩ (normalizeKey "Shift+x") = (s && !c && !a) ∧
       matchKeybind ⟨"x", s, c, a⟩ (normalizeKey "Shift+x") = (s && !c && !a)) ∧
    (∀ (e : KeyEvent) (kb : String), shiftRequired kb = false → ctrlRequired kb = false →
       altRequired kb = false → (e.shiftKey || e.ctrlKey || e.altKey) = true →
       matchKeybind e kb = false) := by
  refine ⟨?_, by decide, ?_⟩
  · intro e kb h0 hm
    have hcond : ¬ ((jsTrim kb == "") = true) := by simpa using h0
    rw [matchKeybind, if_neg hcond] at hm
    simp only [matchKeybindCore, Bool.and_eq_true, beq_iff_eq] at hm
    exact ⟨hm.2.1.1, hm.2.1.2, hm.2.2⟩
  · intro e kb hs hc ha hor
    by_cases h0 : jsTrim kb = ""
    · simp [matchKeybind, h0]
    · have hcond : ¬ ((jsTrim kb == "") = true) := by simpa using h0
      rw [matchKeybind, if_neg hcond]
      simp only [matchKeybindCore, hs, hc, ha]
      obtain ⟨k, s, c, a⟩ := e
      simp only [Bool.or_eq_true] at hor
      rcases hor with (h | h) | h <;> simp_all

/-- C7 witness: the no-modifier binding x rejects a Shift-modified event. -/
theorem C7_witness : matchKeybind ⟨"x", true, false, false⟩ "x" = false :=
  C7_exact_modifier_match.2.2 ⟨"x", true, false, false⟩ "x"
    (by decide) (by decide) (by decide) (by decide)

/-- One movement step does not change the cached history list. -/
theorem applyMove_history (st : AppState) (m : MoveDir) :
    (applyMove st m).history = st.history := by
  cases m <;> rfl

/-- A sequence of movement steps does not change the cached history list. -/
theorem applyMoves_history (st : AppState) (ms : List MoveDir) :
    (applyMoves st ms).history = st.history := by
  induction ms generalizing st with
  | nil => rfl
  | cons m rest ih =>
      show (applyMoves (applyMove st m) rest).history = st.history
      rw [ih, applyMove_history]

/-- From any cursor in the interval from -1 to length minus 1 over a
non-empty list, a single movement step lands in the interval from 0 to
length minus 1. -/
theorem applyMove_bounds (st : AppState) (m : MoveDir)
    (hn : 1 ≤ st.history.length)
    (h1 : -1 ≤ st.selectedIndex)
    (h2 : st.selectedIndex ≤ (st.history.length : Int) - 1) :
    0 ≤ (applyMove st m).selectedIndex ∧
    (applyMove st m).selectedIndex ≤ (st.history.length : Int) - 1 := by
  have hn' : (1 : Int) ≤ (st.history.length : Int) := by exact_mod_cast hn
  cases m with
  | up =>
      constructor
      · exact le_max_right _ _
      · exact max_le (by omega) (by omega)
  | down =>
      constructor
      · exact le_min (by omega) (by omega)
      · exact min_le_right _ _

/-- The interval from 0 to length minus 1 is preserved by any sequence of
movement steps over a non-empty list. -/
theorem applyMoves_bounds_of_nonneg (ms : List MoveDir) (st : AppState)
    (hn : 1 ≤ st.history.length)
    (h1 : 0 ≤ st.selectedIndex)
    (h2 : st.selectedIndex ≤ (st.history.length : Int) - 1) :
    0 ≤ (applyMoves st ms).selectedIndex ∧
    (applyMoves st ms).selectedIndex ≤ (st.history.length : Int) - 1 := by
  induction ms generalizing st with
  | nil => exact ⟨h1, h2⟩
  | cons m rest ih =>
      have hb := applyMove_bounds st m hn (by omega) h2
      have hh := applyMove_history st m
      have hr := ih (applyMove st m) (by rw [hh]; exact hn) hb.1 (by rw [hh]; exact hb.2)
      show 0 ≤ (applyMoves (applyMove st m) rest).selectedIndex ∧ _
      rw [hh] at hr
      exact hr

/-- C9: over a fixed list of length at least 1, any non-empty sequence of
moveUp and moveDown intents started from any cursor between -1 and length
minus 1 leaves the cursor within 0 and length minus 1 after each intent
(every such sequence is a prefix chain of smaller ones, so the bound after
each intent is the bound after every non-empty sequence); the list itself is
untouched, and the steps never wrap: moveUp sets max(i-1, 0) and moveDown
sets min(i+1, n-1). -/
theorem C9_cursor_bounds (st : AppState) (hn : 1 ≤ st.history.length)
    (h1 : -1 ≤ st.selectedIndex)
    (h2 : st.selectedIndex ≤ (st.history.length : Int) - 1)
    (ms : List MoveDir) (hne : ¬ ms = []) :
    (0 ≤ (applyMoves st ms).selectedIndex ∧
     (applyMoves st ms).selectedIndex ≤ (st.history.length : Int) - 1) ∧
    (applyMoves st ms).history = st.history ∧
    (∀ s : AppState,
       (moveUpStep s).selectedIndex = max (s.selectedIndex - 1) 0 ∧
       (moveDownStep s).selectedIndex
         = min (s.selectedIndex + 1) ((s.history.length : Int) - 1)) := by
  refine ⟨?_, applyMoves_history st ms, fun s => ⟨rfl, rfl⟩⟩
  cases ms with
  | nil => exact absurd rfl hne
  | cons m rest =>
      have hb := applyMove_bounds st m hn h1 h2
      have hh := applyMove_history st m
      have hr := applyMoves_bounds_of_nonneg rest (applyMove st m)
        (by rw [hh]; exact hn) hb.1 (by rw [hh]; exact hb.2)
      show 0 ≤ (applyMoves (applyMove st m) rest).selectedIndex ∧ _
      rw [hh] at hr
      exact hr

/-- C9 witness: from the singleton list with cursor -1, one moveUp intent
lands within bounds. -/
theorem C9_witness :
    0 ≤ (applyMoves ⟨[entA], -1, ""⟩ [MoveDir.up]).selectedIndex ∧
    (applyMoves ⟨[entA], -1, ""⟩ [MoveDir.up]).selectedIndex
      ≤ (((⟨[entA], -1, ""⟩ : AppState).history.length : Int) - 1) :=
  (C9_cursor_bounds ⟨[entA], -1, ""⟩ (by decide) (by decide) (by decide)
    [MoveDir.up] (by decide)).1

/-- Lower-casing yields the empty string only from the empty string. -/
theorem jsToLower_eq_empty {s : String} : jsToLower s = "" ↔ s = "" := by
  obtain ⟨data⟩ := s
  unfold jsToLower
  constructor
  · intro h
    have hd : data.map Char.toLower = [] := congrArg String.data h
    have hn : data = [] := List.map_eq_nil_iff.mp hd
    rw [hn]
  · intro h
    rw [show data = [] from congrArg String.data h]
    rfl

/-- The character list of an appended string. -/
theorem string_append_data (a b : String) : (a ++ b).data = a.data ++ b.data := by
  cases a; cases b; rfl

/-- A join of at least two tokens with the plus separator contains a plus
and is therefore non-empty. -/
theorem jsJoin_two_ne_empty (a b : String) (rest : List String) :
    ¬ jsJoin "+" (a :: b :: rest) = "" := by
  intro h
  have hd : (jsJoin "+" (a :: b :: rest)).data = [] := by rw [h]
  rw [show jsJoin "+" (a :: b :: rest) = a ++ "+" ++ jsJoin "+" (b :: rest) from rfl] at hd
  rw [string_append_data, string_append_data] at hd
  rcases List.append_eq_nil.mp hd with ⟨hd1, _⟩
  rcases List.append_eq_nil.mp hd1 with ⟨_, hplus⟩
  exact absurd hplus (by decide)

/-- Length form of the previous lemma. -/
theorem jsJoin_ne_empty_of_two_le {l : List String} (h : 2 ≤ l.length) :
    ¬ jsJoin "+" l = "" := by
  match l, h with
  | a :: b :: rest, _ => exact jsJoin_two_ne_empty a b rest

/-- The splitter produces one more piece than there are separator
occurrences. -/
theorem splitCharAux_length (sep : Char) (cs : List Char) :
    ∀ acc : List Char, (splitCharAux sep cs acc).length = cs.count sep + 1 := by
  induction cs with
  | nil => intro acc; rfl
  | cons c cs ih =>
      intro acc
      by_cases h : c == sep
      · rw [show splitCharAux sep (c :: cs) acc
              = acc.reverse :: splitCharAux sep cs [] from if_pos h]
        simp [List.count_cons, ih, h]
      · rw [show splitCharAux sep (c :: cs) acc
              = splitCharAux sep cs (c :: acc) from if_neg h]
        simp [List.count_cons, ih, h]

/-- A string containing a plus splits into at least two pieces. -/
theorem jsSplit_length_ge_two (s : String) (h : jsIncludes s '+' = true) :
    2 ≤ (jsSplit s '+').length := by
  have hmem : '+' ∈ s.data := by
    unfold jsIncludes at h
    exact List.mem_of_elem_eq_true h
  have hcount : 0 < s.data.count '+' := List.count_pos_iff.mpr hmem
  unfold jsSplit
  rw [List.length_map, splitCharAux_length]
  omega

/-- Normalization yields the disabled binding (the empty string) exactly on
whitespace-only input. -/
theorem normalizeKey_eq_empty_iff (s : String) :
    normalizeKey s = "" ↔ jsTrim s = "" := by
  constructor
  · intro h
    by_contra hne
    have hcond : ¬ ((jsTrim s == "") = true) := by simpa using hne
    rw [normalizeKey, if_neg hcond] at h
    simp only at h
    split at h
    · exact absurd h (by decide)
    · split at h
      · exact absurd h (by decide)
      · split at h
        · exact absurd h (by decide)
        · split at h
          · exact absurd h (by decide)
          · split at h
            · exact absurd h (by decide)
            · split at h
              case isTrue hplus =>
                have h2 := jsSplit_length_ge_two s hplus
                refine absurd h (jsJoin_ne_empty_of_two_le ?_)
                simp only [List.length_append, List.length_map,
                  List.length_dropLast, List.length_cons]
                omega
              case isFalse hplus =>
                exact absurd (jsToLower_eq_empty.mp h) hne
  · intro h
    simp [normalizeKey, h]

/-- C10 counterexample: building the keybind set from a configuration whose
fields are all empty substitutes the defaults, but the stored up and down
bindings are the lower-cased strings arrowup and arrowdown, not ArrowUp and
ArrowDown as the claim states. -/
theorem C10_counterexample :
    (setKeybindsFromConfig ⟨"", "", "", "", ""⟩).historyUp = "arrowup" ∧
    ¬ (setKeybindsFromConfig ⟨"", "", "", "", ""⟩).historyUp = "ArrowUp" ∧
    (setKeybindsFromConfig ⟨"", "", "", "", ""⟩).historyDown = "arrowdown" ∧
    ¬ (setKeybindsFromConfig ⟨"", "", "", "", ""⟩).historyDown = "ArrowDown" := by
  decide

/-- C10 amended: an empty configuration field is replaced by the built-in
default before normalization, so the up, down, select and delete actions can
never be disabled by an empty field: they become arrowup, arrowdown (the
lower-cased canonical forms of the arrow defaults), Enter and x
respectively. A binding is disabled (empty) exactly when its field is a
whitespace-only non-empty string, except delete_all, which is disabled
exactly when its field trims to the empty string, the empty field
included. -/
theorem C10_empty_field_defaults (c : KeybindsConfig) :
    (c.up = "" → (setKeybindsFromConfig c).historyUp = "arrowup") ∧
    (c.down = "" → (setKeybindsFromConfig c).historyDown = "arrowdown") ∧
    (c.select = "" → (setKeybindsFromConfig c).useEntry = "Enter") ∧
    (c.delete = "" → (setKeybindsFromConfig c).removeEntry = "x") ∧
    ((setKeybindsFromConfig c).historyUp = "" ↔ (¬ c.up = "" ∧ jsTrim c.up = "")) ∧
    ((setKeybindsFromConfig c).historyDown = "" ↔ (¬ c.down = "" ∧ jsTrim c.down = "")) ∧
    ((setKeybindsFromConfig c).useEntry = "" ↔ (¬ c.select = "" ∧ jsTrim c.select = "")) ∧
    ((setKeybindsFromConfig c).removeEntry = "" ↔ (¬ c.delete = "" ∧ jsTrim c.delete = "")) ∧
    ((setKeybindsFromConfig c).deleteAll = "" ↔ jsTrim c.delete_all = "") := by
  have field : ∀ (f d : String), ¬ normalizeKey d = "" →
      (normalizeKey (jsOr f d) = "" ↔ (¬ f = "" ∧ jsTrim f = "")) := by
    intro f d hd
    by_cases hf : f = ""
    · subst hf
      have hor : jsOr "" d = d := by simp [jsOr]
      rw [hor]
      constructor
      · intro h
        exact absurd h hd
      · rintro ⟨hne, _⟩
        exact absurd rfl hne
    · have hor : jsOr f d = f := by simp [jsOr, hf]
      rw [hor, normalizeKey_eq_empty_iff]
      exact ⟨fun h => ⟨hf, h⟩, fun h => h.2⟩
  refine ⟨?_, ?_, ?_, ?_, ?_, ?_, ?_, ?_, ?_⟩
  · intro h; simp only [setKeybindsFromConfig, jsOr, h, if_pos rfl]; decide
  · intro h; simp only [setKeybindsFromConfig, jsOr, h, if_pos rfl]; decide
  · intro h; simp only [setKeybindsFromConfig, jsOr, h, if_pos rfl]; decide
  · intro h; simp only [setKeybindsFromConfig, jsOr, h, if_pos rfl]; decide
  · exact field c.up "ArrowUp" (by decide)
  · exact field c.down "ArrowDown" (by decide)
  · exact field c.select "Enter" (by decide)
  · exact field c.delete "x" (by decide)
  · show normalizeKey (jsOr c.delete_all "") = "" ↔ _
    have hor : jsOr c.delete_all "" = c.delete_all := by
      by_cases h : c.delete_all = "" <;> simp [jsOr, h]
    rw [hor, normalizeKey_eq_empty_iff]

/-- C10 witness: the first conjunct applied at the all-empty configuration. -/
theorem C10_witness :
    (setKeybindsFromConfig ⟨"", "x1", "x2", "x3", "x4"⟩).historyUp = "arrowup" :=
  (C10_empty_field_defaults ⟨"", "x1", "x2", "x3", "x4"⟩).1 rfl
